import Mathlib

/-!
Verification development for the publish orchestration module
(`packages/cli/src/commands/publish/npm-utils.ts` of the changesets repository).

The TypeScript source is shallowly embedded: pure computations become Lean
functions, JavaScript exceptions become `Except`, the `Promise<boolean>` field
`isRequired` is modelled by its resolved boolean value, the mutable
`TwoFactorState` object is threaded explicitly, and each external subprocess
spawn is modelled by the standard-output string (or probe outcome) it yields.
-/

namespace NpmUtils

/-- The opening brace character, `Char.ofNat 123`. -/
def braceOpen : Char := Char.ofNat 123

/-- The closing brace character, `Char.ofNat 125`. -/
def braceClose : Char := Char.ofNat 125

/-- JSON values as produced by the JavaScript `JSON.parse` builtin.
Numbers are modelled as integers (the fractional forms are never relevant to
the embedded code paths). Object fields keep their textual order. -/
inductive JsonValue where
  | null
  | bool (flag : Bool)
  | num (value : Int)
  | str (text : String)
  | arr (items : List JsonValue)
  | obj (fields : List (String × JsonValue))

/-- JavaScript property read `v[k]` on a JSON value: objects yield their last
binding for `k` (as `JSON.parse` keeps the last duplicate key), every
non-object yields `undefined` (modelled `none`).  Note: in JavaScript a
property read on `null` throws; all embedded uses either guard the receiver
by a truthiness test first or use optional chaining, so this total model
agrees with the source on every reachable receiver. -/
def JsonValue.get : JsonValue → String → Option JsonValue
  | .obj fields, k => (fields.reverse.find? (fun f => f.1 == k)).map (·.2)
  | _, _ => none

/-- JavaScript truthiness of a possibly-`undefined` JSON value. -/
def truthy : Option JsonValue → Bool
  | none => false
  | some .null => false
  | some (.bool b) => b
  | some (.num n) => n != 0
  | some (.str s) => s != ""
  | some (.arr _) => true
  | some (.obj _) => true

/-- Optional-chaining property read `v?.[k]`: `undefined` on `null` or
`undefined` receivers, otherwise a plain property read. -/
def optChain (v : Option JsonValue) (k : String) : Option JsonValue :=
  match v with
  | none => none
  | some .null => none
  | some w => w.get k

/-- JavaScript strict equality `v === "s"` between a possibly-`undefined`
JSON value and a string literal. -/
def jsEqStr (v : Option JsonValue) (s : String) : Bool :=
  match v with
  | some (.str t) => t == s
  | _ => false

/-- Errors thrown by the embedded JavaScript: `SyntaxError` from `JSON.parse`
(carrying the offending input), `TypeError` from calling a method on
`undefined`, and `ExitError` from the changesets error type. -/
inductive JsError where
  | syntaxError (input : String)
  | typeError (msg : String)
  | exitError (code : Nat)
deriving DecidableEq

/-- Occurrence of one character sequence inside another, used to model
JavaScript `String.prototype.includes`. -/
def containsSeq (needle : List Char) : List Char → Bool
  | [] => needle.isEmpty
  | c :: rest => needle.isPrefixOf (c :: rest) || containsSeq needle rest

/-- JavaScript `v.includes(needle)`: substring test on strings, element test
on arrays, a `TypeError` on every other receiver (including `undefined`,
which is how a detail-less `E401` crashes the source). -/
def jsIncludes (v : Option JsonValue) (needle : String) : Except JsError Bool :=
  match v with
  | some (.str s) => .ok (containsSeq needle.data s.data)
  | some (.arr elems) =>
      .ok (elems.any fun e => match e with | .str t => t == needle | _ => false)
  | _ => .error (.typeError "includes is not a function")

/-- JSON whitespace. -/
def isJsonWs (c : Char) : Bool := c = ' ' || c = '\n' || c = '\t' || c = '\r'

/-- Drop leading JSON whitespace. -/
def skipWs : List Char → List Char
  | [] => []
  | c :: rest => if isJsonWs c then skipWs rest else c :: rest

/-- Decode one JSON string escape (the `\u` form is not modelled; no embedded
code path depends on it).  The backspace and form-feed characters are written
via their code points. -/
def escChar (e : Char) : Option Char :=
  if e = '"' ∨ e = '\\' ∨ e = '/' then some e
  else if e = 'n' then some '\n'
  else if e = 't' then some '\t'
  else if e = 'r' then some '\r'
  else if e = 'b' then some (Char.ofNat 8)
  else if e = 'f' then some (Char.ofNat 12)
  else none

/-- Parse the body of a JSON string literal (after the opening quote),
returning the decoded characters and the rest of the input. -/
def parseStrAux : List Char → Option (List Char × List Char)
  | [] => none
  | '"' :: rest => some ([], rest)
  | '\\' :: rest =>
    match rest with
    | [] => none
    | e :: rest1 =>
      match escChar e with
      | none => none
      | some c => (parseStrAux rest1).map fun p => (c :: p.1, p.2)
  | c :: rest => (parseStrAux rest).map fun p => (c :: p.1, p.2)

/-- Numeric value of a decimal digit character. -/
def digitVal (c : Char) : Nat := c.toNat - 48

/-- Parse a nonempty digit run as a natural number. -/
def parseNumAux (cs : List Char) : Option (Nat × List Char) :=
  let p := cs.span (·.isDigit)
  if p.1 = [] then none
  else some (p.1.foldl (fun acc d => 10 * acc + digitVal d) 0, p.2)

mutual

/-- Fuel-indexed parser for one JSON value, modelling the `JSON.parse`
builtin on the value forms the embedded code exercises. -/
def parseValue : Nat → List Char → Option (JsonValue × List Char)
  | 0, _ => none
  | fuel + 1, cs =>
    let ws := skipWs cs
    if "null".data.isPrefixOf ws then some (.null, ws.drop 4)
    else if "true".data.isPrefixOf ws then some (.bool true, ws.drop 4)
    else if "false".data.isPrefixOf ws then some (.bool false, ws.drop 5)
    else
    match ws with
    | [] => none
    | '"' :: rest => (parseStrAux rest).map fun p => (.str ⟨p.1⟩, p.2)
    | '-' :: rest => (parseNumAux rest).map fun p => (.num (-(p.1 : Int)), p.2)
    | c :: rest =>
      if c = braceOpen then
        match skipWs rest with
        | [] => none
        | d :: rest1 =>
          if d = braceClose then some (.obj [], rest1)
          else (parseMembers fuel (d :: rest1)).map fun p => (.obj p.1, p.2)
      else if c = '[' then
        match skipWs rest with
        | [] => none
        | d :: rest1 =>
          if d = ']' then some (.arr [], rest1)
          else (parseElems fuel (d :: rest1)).map fun p => (.arr p.1, p.2)
      else if c.isDigit then
        (parseNumAux (c :: rest)).map fun p => (.num (p.1 : Int), p.2)
      else none

/-- Fuel-indexed parser for the members of a nonempty JSON object body. -/
def parseMembers : Nat → List Char → Option (List (String × JsonValue) × List Char)
  | 0, _ => none
  | fuel + 1, cs =>
    match skipWs cs with
    | '"' :: rest =>
      match parseStrAux rest with
      | none => none
      | some (key, rest1) =>
        match skipWs rest1 with
        | ':' :: rest2 =>
          match parseValue fuel rest2 with
          | none => none
          | some (v, rest3) =>
            match skipWs rest3 with
            | [] => none
            | c :: rest4 =>
              if c = ',' then
                (parseMembers fuel rest4).map fun p => ((⟨key⟩, v) :: p.1, p.2)
              else if c = braceClose then some ([(⟨key⟩, v)], rest4)
              else none
        | _ => none
    | _ => none

/-- Fuel-indexed parser for the elements of a nonempty JSON array body. -/
def parseElems : Nat → List Char → Option (List JsonValue × List Char)
  | 0, _ => none
  | fuel + 1, cs =>
    match parseValue fuel cs with
    | none => none
    | some (v, rest) =>
      match skipWs rest with
      | [] => none
      | c :: rest1 =>
        if c = ',' then (parseElems fuel rest1).map fun p => (v :: p.1, p.2)
        else if c = ']' then some ([v], rest1)
        else none

end

/-- Top-level JSON parse: one value, then only whitespace may remain.  The
fuel is ample since every recursive step consumes input. -/
def parseTop (s : String) : Option JsonValue :=
  match parseValue (s.length * 2 + 2) s.data with
  | some (v, rest) => if skipWs rest = [] then some v else none
  | none => none

/-- Embeds `jsonParse` (source lines 16-25): `JSON.parse` that logs and
rethrows the `SyntaxError` on failure; the rethrow is the `.error` case. -/
def jsonParse (input : String) : Except JsError JsonValue :=
  match parseTop input with
  | none => .error (.syntaxError input)
  | some v => .ok v

/-- Embeds the regular-expression replacement at source line 213,
`stdout.toString().replace(/[^\x7b]*/, "")`: the first match of the pattern
is the maximal run of non-brace characters starting at position 0, so the
replacement drops every character before the first opening brace. -/
def stripToJson (s : String) : String :=
  ⟨s.data.dropWhile (fun c => c ≠ braceOpen)⟩

/-- Embeds `getCorrectRegistry` (source lines 27-34).  The two inputs model
`packageJson?.publishConfig?.registry` and `process.env.npm_config_registry`
(`none` = absent/undefined); `??` is `Option.orElse`, and the JavaScript
falsiness test `!registry` is true exactly on `undefined` and `""`. -/
def getCorrectRegistry (pkgRegistry envRegistry : Option String) : String :=
  let registry : Option String := pkgRegistry.orElse fun _ => envRegistry
  match registry with
  | none => "https://registry.npmjs.org"
  | some r =>
    if r = "" ∨ r = "https://registry.yarnpkg.com" then "https://registry.npmjs.org"
    else r

/-- Registry resolution policy as the spec words it (section 4.1 and the
first testable property): refinement target for the source function. -/
def registrySpec (pkgRegistry envRegistry : Option String) : String :=
  let selected : Option String :=
    match pkgRegistry with
    | some r => some r
    | none => envRegistry
  match selected with
  | none => "https://registry.npmjs.org"
  | some r =>
    if r = "" ∨ r = "https://registry.yarnpkg.com" then "https://registry.npmjs.org"
    else r

/-- The tagged publish-tool variant (source lines 36-39). -/
inductive PublishTool where
  | npm
  | pnpm (shouldAddNoGitChecks : Bool)
  | yarn (berry : Bool)
deriving DecidableEq

/-- Outcome of the `pnpm --version` / `yarn --version` probe: `.error ()`
models the spawn throwing, `.ok none` models a standard output that
`semver.parse` cannot parse (it returns `null`), and `.ok (some m)` models a
parsed version with major component `m`. -/
abbrev VersionProbe := Except Unit (Option Nat)

/-- Embeds `getPublishTool` (source lines 41-81) as a function of the
preferred-package-manager probe (the external `preferred-pm` result name)
and the version probe for the selected tool. -/
def getPublishTool (pm : Option String) (probe : VersionProbe) : PublishTool :=
  if pm = some "pnpm" then
    match probe with
    | .error _ => .pnpm false
    | .ok major =>
      .pnpm (match major with
             | none => false
             | some m => decide (5 ≤ m))
  else if pm = some "yarn" then
    match probe with
    | .error _ => .yarn false
    | .ok major =>
      .yarn (match major with
             | none => false
             | some m => decide (2 ≤ m))
  else .npm

/-- A spawned subprocess request: executable, arguments, and the forced
value of the registry environment variable (when overridden). -/
structure SpawnRequest where
  cmd : String
  args : List String
  envRegistryOverride : Option String
deriving DecidableEq

/-- Embeds the spawn request built by `getTokenIsRequired` (source lines
86-91): `npm profile get --json` with `npm_config_registry` forced to the
resolved registry (no package argument, so the package override is absent). -/
def getTokenIsRequiredRequest (envRegistry : Option String) : SpawnRequest :=
  { cmd := "npm"
    args := ["profile", "get", "--json"]
    envRegistryOverride := some (getCorrectRegistry none envRegistry) }

/-- Embeds the result interpretation of `getTokenIsRequired` (source lines
92-96) as a function of the profile query's standard output. -/
def getTokenIsRequired (stdout : String) : Except JsError Bool :=
  match jsonParse stdout with
  | .error e => Except.error e
  | .ok json =>
    if truthy (json.get "error") || !truthy (json.get "tfa")
        || !truthy (optChain (json.get "tfa") "mode") then
      .ok false
    else
      .ok (jsEqStr (optChain (json.get "tfa") "mode") "auth-and-writes")

/-- Embeds `getPackageInfo` (source lines 99-128) as a function of the info
query's standard output: an empty output is mapped to a synthetic `E404`
error object (the GitHub-registry quirk), anything else is JSON-parsed. -/
def getPackageInfo (stdout : String) : Except JsError JsonValue :=
  if stdout = "" then
    .ok (.obj [("error", .obj [("code", .str "E404")])])
  else jsonParse stdout

/-- Result shape of `infoAllow404`. -/
structure InfoResult where
  published : Bool
  pkgInfo : JsonValue

/-- Embeds `infoAllow404` (source lines 130-148): `E404` becomes
`published: false` with an empty info object, any other truthy error throws
`ExitError(1)`, and no (truthy) error becomes `published: true`. -/
def infoAllow404 (pkgInfo : JsonValue) : Except JsError InfoResult :=
  if jsEqStr (optChain (pkgInfo.get "error") "code") "E404" then
    .ok ⟨false, .obj []⟩
  else if truthy (pkgInfo.get "error") then
    .error (.exitError 1)
  else
    .ok ⟨true, pkgInfo⟩

/-- The shared two-factor state (`utils/types`' `TwoFactorState`): the
`token` field is `string | null`, and `isRequired` is modelled by the
resolved value of its `Promise<boolean>`. -/
structure TwoFactorState where
  token : Option String
  isRequired : Bool
deriving DecidableEq

/-- Embeds `askForOtpCode` (source lines 152-162), the body run under the
capacity-1 `otpAskLimit` gate: re-check the token (a concurrent caller may
have filled it while this caller waited for the gate), otherwise prompt the
operator, store the answer, and return it.  The state argument is the state
observed once the gate admits this caller; `input` is the operator's answer
line. -/
def askForOtpCode (state : TwoFactorState) (input : String) :
    String × TwoFactorState :=
  match state.token with
  | some t => (t, state)
  | none => (input, { state with token := some input })

/-- Embeds `getOtpCode` (source lines 164-169): return a known token
immediately, otherwise delegate to the gated prompt routine. -/
def getOtpCode (state : TwoFactorState) (input : String) :
    String × TwoFactorState :=
  match state.token with
  | some t => (t, state)
  | none => askForOtpCode state input

/-- The options record threaded through `internalPublish` and `publish`. -/
structure PublishOpts where
  cwd : String
  access : Option String
  tag : String
deriving DecidableEq

/-- Embeds the argument-vector construction of `internalPublish` (source
lines 179-199) as a function of the detected tool, the options, and the OTP
code appended (if any). -/
def buildPublishArgs (tool : PublishTool) (opts : PublishOpts)
    (otp : Option String) : List String :=
  (match tool with
   | .yarn true => ["npm"]
   | _ => []) ++
  ["publish", opts.cwd, "--json"] ++
  (match opts.access with
   | some a => ["--access", a]
   | none => []) ++
  ["--tag", opts.tag] ++
  (match otp with
   | some code => ["--otp", code]
   | none => []) ++
  (match tool with
   | .pnpm true => ["--no-git-checks"]
   | _ => [])

/-- The external interactions of one publish attempt: the preferred-pm and
version probes consumed by `getPublishTool`, the operator's answer should a
prompt occur, and the spawned tool's standard output. -/
structure AttemptEnv where
  pm : Option String
  probe : VersionProbe
  otpInput : String
  stdout : String

/-- What one attempt decides: a terminal result, or a retry carrying the
mutated two-factor state. -/
inductive AttemptOutcome where
  | done (published : Bool)
  | retry (state : TwoFactorState)
deriving DecidableEq

/-- Observable record of one attempt: the argument vector spawned, whether
`getOtpCode` was invoked, and the outcome. -/
structure AttemptRecord where
  args : List String
  usedGetOtp : Bool
  outcome : AttemptOutcome

/-- Embeds one pass of `internalPublish` (source lines 173-237) minus the
recursive call: detect the tool, build the arguments (acquiring an OTP when
`isRequired` resolved true and not in CI), parse the spawn output, and either
finish or request a retry.  The error-condition test preserves the
JavaScript evaluation order of lines 218-223, including the `TypeError`
thrown by `json.error.detail.includes` when `detail` is absent; the logging
on lines 232-236 is a side effect with no modelled content. -/
def attemptPublish (opts : PublishOpts) (isCI : Bool) (st : TwoFactorState)
    (env : AttemptEnv) : Except JsError AttemptRecord :=
  let tool := getPublishTool env.pm env.probe
  let acq : Option String × Bool × TwoFactorState :=
    if st.isRequired && !isCI then
      let p := getOtpCode st env.otpInput
      (some p.1, true, p.2)
    else (none, false, st)
  let args := buildPublishArgs tool opts acq.1
  match jsonParse (stripToJson env.stdout) with
  | .error e => .error e
  | .ok json =>
    if !truthy (json.get "error") then
      .ok ⟨args, acq.2.1, .done true⟩
    else
      let errField := json.get "error"
      let condE : Except JsError Bool :=
        if jsEqStr (optChain errField "code") "EOTP" then .ok true
        else if jsEqStr (optChain errField "code") "E401" then
          jsIncludes (optChain errField "detail") "--otp=<code>"
        else .ok false
      match condE with
      | .error e => .error e
      | .ok cond =>
        if cond && !isCI then
          .ok ⟨args, acq.2.1,
               .retry { acq.2.2 with token := none, isRequired := true }⟩
        else
          .ok ⟨args, acq.2.1, .done false⟩

/-- Result record of a publish call. -/
structure PublishResult where
  published : Bool
deriving DecidableEq

/-- Embeds `internalPublish` (source lines 173-238): run attempts, following
the retry edge with the mutated state, against a finite script of external
interactions.  `.ok none` means the script ran out while a further retry was
still pending (the source recursion is unbounded). -/
def internalPublish (opts : PublishOpts) (isCI : Bool) :
    TwoFactorState → List AttemptEnv → Except JsError (Option PublishResult)
  | _, [] => .ok none
  | st, env :: rest =>
    match attemptPublish opts isCI st env with
    | .error e => .error e
    | .ok rec =>
      match rec.outcome with
      | .done p => .ok (some ⟨p⟩)
      | .retry st1 => internalPublish opts isCI st1 rest

/-- A bounded-concurrency gate, holding only its fixed capacity. -/
structure Gate where
  capacity : Nat
deriving DecidableEq

/-- Embeds `const npmRequestLimit = pLimit(40)` (source line 13). -/
def npmRequestLimit : Gate := ⟨40⟩

/-- Embeds `const npmPublishLimit = pLimit(10)` (source line 14). -/
def npmPublishLimit : Gate := ⟨10⟩

/-- Embeds `let otpAskLimit = pLimit(1)` (source line 150). -/
def otpAskLimit : Gate := ⟨1⟩

/-- Names for the three gate instances of the module. -/
inductive GateName where
  | infoGate
  | publishGate
  | otpGate
deriving DecidableEq

/-- Capacity of each named gate, read off the source constants. -/
def gateCapacity : GateName → Nat
  | .infoGate => npmRequestLimit.capacity
  | .publishGate => npmPublishLimit.capacity
  | .otpGate => otpAskLimit.capacity

/-- Number of units currently admitted by each gate. -/
structure GateCounts where
  infoCount : Nat
  publishCount : Nat
  otpCount : Nat
deriving DecidableEq

/-- Read the count of one gate. -/
def GateCounts.get (c : GateCounts) : GateName → Nat
  | .infoGate => c.infoCount
  | .publishGate => c.publishCount
  | .otpGate => c.otpCount

/-- Increment the count of one gate. -/
def GateCounts.inc (c : GateCounts) : GateName → GateCounts
  | .infoGate => { c with infoCount := c.infoCount + 1 }
  | .publishGate => { c with publishCount := c.publishCount + 1 }
  | .otpGate => { c with otpCount := c.otpCount + 1 }

/-- Decrement the count of one gate. -/
def GateCounts.dec (c : GateCounts) : GateName → GateCounts
  | .infoGate => { c with infoCount := c.infoCount - 1 }
  | .publishGate => { c with publishCount := c.publishCount - 1 }
  | .otpGate => { c with otpCount := c.otpCount - 1 }

/-- A scheduling event at a gate: a unit of work is admitted, or finishes
and releases its slot. -/
inductive GateEvent where
  | acquire (g : GateName)
  | release (g : GateName)
deriving DecidableEq

/-- Modelled from the spec: the `p-limit` gate semantics (source section
4.3; the `p-limit` package itself is an external dependency, not part of
this repository).  A unit is admitted only while the gate is below its
capacity; a release frees an occupied slot. -/
def gateStep (c : GateCounts) : GateEvent → Option GateCounts
  | .acquire g => if c.get g < gateCapacity g then some (c.inc g) else none
  | .release g => if 0 < c.get g then some (c.dec g) else none

/-- Run a sequence of gate events from a starting occupancy; `none` when an
event is not enabled. -/
def runTrace : GateCounts → List GateEvent → Option GateCounts
  | c, [] => some c
  | c, e :: es =>
    match gateStep c e with
    | some c1 => runTrace c1 es
    | none => none

/-- All three gate occupancies are within capacity. -/
def withinCapacity (c : GateCounts) : Prop :=
  c.infoCount ≤ npmRequestLimit.capacity ∧
  c.publishCount ≤ npmPublishLimit.capacity ∧
  c.otpCount ≤ otpAskLimit.capacity

instance (c : GateCounts) : Decidable (withinCapacity c) := by
  unfold withinCapacity; infer_instance

/-- The idle occupancy. -/
def zeroCounts : GateCounts := ⟨0, 0, 0⟩

/-- Gating structure of the module's tasks: one spawn-and-parse attempt, an
unbounded retry loop around a body, or a body wrapped in a gate. -/
inductive Prog where
  | attempt
  | retryLoop (body : Prog)
  | gated (g : GateName) (body : Prog)
deriving DecidableEq

/-- Gating structure of `internalPublish` (source lines 173-238): a retry
loop whose body acquires no gate — the recursive call on line 230 invokes
`internalPublish` directly, not the gated `publish` wrapper. -/
def internalPublishProg : Prog := .retryLoop .attempt

/-- Gating structure of the public `publish` entry (source lines 240-250):
`npmRequestLimit(() => npmPublishLimit(() => internalPublish(...)))`. -/
def publishProg : Prog :=
  .gated .infoGate (.gated .publishGate internalPublishProg)

/-- The gates wrapped around a task, outermost first. -/
def outerGates : Prog → List GateName
  | .gated g p => g :: outerGates p
  | _ => []

/-- Remove the outer gate wrappers of a task. -/
def stripGates : Prog → Prog
  | .gated _ p => stripGates p
  | p => p

/-- Whether a task acquires any gate anywhere inside. -/
def acquiresGate : Prog → Bool
  | .attempt => false
  | .retryLoop p => acquiresGate p
  | .gated _ _ => true

/-! ## Helper lemmas -/

/-- A value with a successful property read is an object. -/
lemma get_some_obj {v : JsonValue} {k : String} {x : JsonValue}
    (h : v.get k = some x) : ∃ fields, v = .obj fields := by
  cases v
  case obj fields => exact ⟨fields, rfl⟩
  all_goals simp [JsonValue.get] at h

/-- Objects are truthy. -/
lemma truthy_obj (fields : List (String × JsonValue)) :
    truthy (some (.obj fields)) = true := rfl

/-- Optional chaining on an object is a plain property read. -/
lemma optChain_obj (fields : List (String × JsonValue)) (k : String) :
    optChain (some (.obj fields)) k = JsonValue.get (.obj fields) k := rfl

/-- A falsy value has no properties to read through optional chaining. -/
lemma optChain_of_falsy {v : Option JsonValue} (h : truthy v = false)
    (k : String) : optChain v k = none := by
  match v with
  | none => rfl
  | some .null => rfl
  | some (.bool b) => cases b <;> simp_all [truthy, optChain, JsonValue.get]
  | some (.num n) => simp [optChain, JsonValue.get]
  | some (.str s) => simp [optChain, JsonValue.get]
  | some (.arr es) => simp [truthy] at h
  | some (.obj fs) => simp [truthy] at h

/-- A falsy value never strictly equals the string `"auth-and-writes"`. -/
lemma jsEqStr_auth_of_falsy {v : Option JsonValue} (h : truthy v = false) :
    jsEqStr v "auth-and-writes" = false := by
  match v with
  | none => rfl
  | some .null => rfl
  | some (.bool b) => rfl
  | some (.num n) => rfl
  | some (.str s) =>
    simp [truthy] at h
    simp [jsEqStr, h]
  | some (.arr es) => simp [truthy] at h
  | some (.obj fs) => simp [truthy] at h

/-- Parsing the empty string fails with a `SyntaxError` carrying it. -/
lemma jsonParse_empty : jsonParse "" = .error (.syntaxError "") := rfl

/-! ## Claim theorems -/

/-- Claim C3 (confirmed): registry resolution — the package-level override
takes precedence over the environment override, and an absent, empty or
yarnpkg-mirror result falls back to the canonical public registry; the
function is a pure total Lean function, so it never fails. -/
theorem c3_registry_resolution :
    (∀ pkgRegistry envRegistry : Option String,
      getCorrectRegistry pkgRegistry envRegistry =
        registrySpec pkgRegistry envRegistry) ∧
    (∀ envRegistry, getCorrectRegistry (some "https://registry.yarnpkg.com")
        envRegistry = "https://registry.npmjs.org") ∧
    getCorrectRegistry none none = "https://registry.npmjs.org" := by
  refine ⟨fun p e => ?_, fun e => rfl, rfl⟩
  cases p <;> rfl

/-- Claim C4 (confirmed): tool detection — pnpm with a parsed major yields
`shouldAddNoGitChecks = major >= 5`, yarn yields `berry = major >= 2`, every
probe failure degrades to the safe default variant, anything else is npm,
and the function is total (never rejects). -/
theorem c4_tool_detection :
    (∀ m : Nat, getPublishTool (some "pnpm") (.ok (some m)) =
      .pnpm (decide (5 ≤ m))) ∧
    getPublishTool (some "pnpm") (.error ()) = .pnpm false ∧
    getPublishTool (some "pnpm") (.ok none) = .pnpm false ∧
    (∀ m : Nat, getPublishTool (some "yarn") (.ok (some m)) =
      .yarn (decide (2 ≤ m))) ∧
    getPublishTool (some "yarn") (.error ()) = .yarn false ∧
    getPublishTool (some "yarn") (.ok none) = .yarn false ∧
    (∀ (pm : Option String) (probe : VersionProbe),
      pm ≠ some "pnpm" → pm ≠ some "yarn" → getPublishTool pm probe = .npm) := by
  refine ⟨fun m => rfl, rfl, rfl, fun m => rfl, rfl, rfl, ?_⟩
  intro pm probe h1 h2
  simp [getPublishTool, h1, h2]

/-- Witness for C4 at a concrete input: no preferred manager detected
yields the npm variant. -/
theorem c4_tool_detection_witness :
    getPublishTool none (.ok none) = .npm :=
  c4_tool_detection.2.2.2.2.2.2 none (.ok none) (by simp) (by simp)

/-- Claim C8 (confirmed): `getOtpCode` returns a known token immediately;
otherwise it delegates to the gated `askForOtpCode`, which re-checks the
token as observed under the gate (returning it if a concurrent caller filled
it) and otherwise prompts, stores the answer into the state, and returns it;
afterwards the state's token always equals the returned value. -/
theorem c8_get_otp_code_contract :
    (∀ (st : TwoFactorState) (input t : String), st.token = some t →
      getOtpCode st input = (t, st)) ∧
    (∀ (st : TwoFactorState) (input : String), st.token = none →
      getOtpCode st input = askForOtpCode st input) ∧
    (∀ (stGate : TwoFactorState) (input t : String), stGate.token = some t →
      askForOtpCode stGate input = (t, stGate)) ∧
    (∀ (stGate : TwoFactorState) (input : String), stGate.token = none →
      askForOtpCode stGate input = (input, { stGate with token := some input })) ∧
    (∀ (st : TwoFactorState) (input : String),
      ((getOtpCode st input).2).token = some (getOtpCode st input).1) := by
  refine ⟨?_, ?_, ?_, ?_, ?_⟩
  · intro st input t h; simp [getOtpCode, h]
  · intro st input h; simp [getOtpCode, h]
  · intro st input t h; simp [askForOtpCode, h]
  · intro st input h; simp [askForOtpCode, h]
  · intro st input
    cases h : st.token <;> simp [getOtpCode, askForOtpCode, h]

/-- Witness for C8 at a concrete input: a state that already holds a token
returns it unchanged. -/
theorem c8_get_otp_code_contract_witness :
    getOtpCode ⟨some "123456", true⟩ "ignored" = ("123456", ⟨some "123456", true⟩) :=
  c8_get_otp_code_contract.1 ⟨some "123456", true⟩ "ignored" "123456" rfl

/-- Claim C2 (code bug): an `E401` error without a `detail` field makes
`internalPublish` throw a `TypeError` (line 221 reads
`json.error.detail.includes` unguarded, while the terminal branch on line
235 does guard `detail`), instead of reporting and returning
`published: false` as the spec's terminal-error rule states.  A genuinely
other error code (here `E500`) does follow the terminal rule. -/
theorem c2_e401_missing_detail_raises :
    internalPublish ⟨"/pkg", none, "latest"⟩ false ⟨none, false⟩
      [⟨none, .error (), "",
        "\x7b\"error\":\x7b\"code\":\"E401\",\"summary\":\"authorization required\"\x7d\x7d"⟩] =
      .error (.typeError "includes is not a function") ∧
    internalPublish ⟨"/pkg", none, "latest"⟩ false ⟨none, false⟩
      [⟨none, .error (), "",
        "\x7b\"error\":\x7b\"code\":\"E500\",\"summary\":\"server error\"\x7d\x7d"⟩] =
      .ok (some ⟨false⟩) :=
  ⟨rfl, rfl⟩

/-- Claim C1 (confirmed): on a parsed output whose error code is `EOTP`, or
`E401` with a detail text containing `--otp=<code>`, outside CI,
`internalPublish` clears the token, marks `isRequired` resolved-true, and
recurses on the same package and options instead of returning. -/
theorem c1_otp_retry_edge (opts : PublishOpts) (st : TwoFactorState)
    (env : AttemptEnv) (rest : List AttemptEnv) (json err : JsonValue)
    (hparse : jsonParse (stripToJson env.stdout) = .ok json)
    (herr : json.get "error" = some err)
    (hcode : err.get "code" = some (.str "EOTP") ∨
      (err.get "code" = some (.str "E401") ∧
        ∃ d : String, err.get "detail" = some (.str d) ∧
          containsSeq "--otp=<code>".data d.data = true)) :
    (∃ args used, attemptPublish opts false st env =
      .ok ⟨args, used, .retry ⟨none, true⟩⟩) ∧
    internalPublish opts false st (env :: rest) =
      internalPublish opts false ⟨none, true⟩ rest := by
  have hcond :
      (if jsEqStr (optChain (json.get "error") "code") "EOTP" then
        Except.ok (ε := JsError) true
      else if jsEqStr (optChain (json.get "error") "code") "E401" then
        jsIncludes (optChain (json.get "error") "detail") "--otp=<code>"
      else .ok false) = .ok true := by
    obtain ⟨fields, rfl⟩ :=
      (hcode.elim (fun h => get_some_obj h) (fun h => get_some_obj h.1))
    rw [herr, optChain_obj, optChain_obj]
    rcases hcode with h | ⟨h, d, hd, hinc⟩
    · simp [h, jsEqStr]
    · rw [h, hd]
      simp [jsEqStr, jsIncludes, hinc]
  have htruthy : truthy (json.get "error") = true := by
    obtain ⟨fields, hfields⟩ :=
      (hcode.elim (fun h => get_some_obj h) (fun h => get_some_obj h.1))
    rw [herr, hfields]; exact truthy_obj fields
  have hattempt : ∃ args used, attemptPublish opts false st env =
      .ok ⟨args, used, .retry ⟨none, true⟩⟩ := by
    simp only [attemptPublish, hparse, htruthy, Bool.not_true, Bool.not_false,
      Bool.false_eq_true, if_false, hcond, Bool.and_true]
    split
    · exact ⟨_, _, rfl⟩
    · simp_all
  obtain ⟨args, used, hat⟩ := hattempt
  refine ⟨⟨args, used, hat⟩, ?_⟩
  simp [internalPublish, hat]

/-- Witness for C1 at a concrete input: a scripted `EOTP` rejection outside
CI retries once and then succeeds. -/
theorem c1_otp_retry_edge_witness :
    internalPublish ⟨"/pkg", none, "latest"⟩ false ⟨some "111111", true⟩
        [⟨none, .error (), "222222", "\x7b\"error\":\x7b\"code\":\"EOTP\"\x7d\x7d"⟩,
         ⟨none, .error (), "222222", "\x7b\"id\":\"pkg@1.0.0\"\x7d"⟩] =
      internalPublish ⟨"/pkg", none, "latest"⟩ false ⟨none, true⟩
        [⟨none, .error (), "222222", "\x7b\"id\":\"pkg@1.0.0\"\x7d"⟩] :=
  (c1_otp_retry_edge ⟨"/pkg", none, "latest"⟩ ⟨some "111111", true⟩
    ⟨none, .error (), "222222", "\x7b\"error\":\x7b\"code\":\"EOTP\"\x7d\x7d"⟩
    [⟨none, .error (), "222222", "\x7b\"id\":\"pkg@1.0.0\"\x7d"⟩]
    (.obj [("error", .obj [("code", .str "EOTP")])])
    (.obj [("code", .str "EOTP")])
    rfl rfl (Or.inl rfl)).2

/-- Elements kept by `takeWhile` satisfy the predicate. -/
lemma mem_takeWhile_sat {p : Char → Bool} {l : List Char} {c : Char}
    (h : c ∈ l.takeWhile p) : p c = true := by
  induction l with
  | nil => simp [List.takeWhile] at h
  | cons a rest ih =>
    by_cases ha : p a
    · rw [List.takeWhile_cons_of_pos ha] at h
      rcases List.mem_cons.mp h with rfl | h
      · exact ha
      · exact ih h
    · rw [List.takeWhile_cons_of_neg ha] at h
      simp at h

/-- The result of `dropWhile` is empty or starts with a failing element. -/
lemma dropWhile_head_not {p : Char → Bool} (l : List Char) :
    l.dropWhile p = [] ∨
      ∃ c t, l.dropWhile p = c :: t ∧ p c = false := by
  induction l with
  | nil => exact Or.inl rfl
  | cons a rest ih =>
    by_cases ha : p a
    · rw [List.dropWhile_cons_of_pos ha]
      exact ih
    · rw [List.dropWhile_cons_of_neg ha]
      exact Or.inr ⟨a, rest, rfl, by simpa using ha⟩

/-- If the brace never occurs, the stripped string is empty. -/
lemma stripToJson_of_no_brace {s : String} (h : braceOpen ∉ s.data) :
    stripToJson s = "" := by
  have hdata : s.data.dropWhile (fun c => c ≠ braceOpen) = [] := by
    rw [List.dropWhile_eq_nil_iff]
    intro c hc
    simp only [ne_eq, decide_eq_true_eq]
    exact fun hcb => h (hcb ▸ hc)
  show String.mk (s.data.dropWhile (fun c => c ≠ braceOpen)) = ""
  rw [hdata]

/-- Claim C5 (confirmed): `internalPublish` strips every character before
the first opening brace from the tool output and JSON-parses the rest; the
documented hook-noise example parses to `published: true`; and when no brace
occurs at all, the parse failure propagates to the caller as a thrown
`SyntaxError` instead of being swallowed. -/
theorem c5_json_prefix_parsing :
    (∀ s : String, ∃ noise : List Char,
      s.data = noise ++ (stripToJson s).data ∧ braceOpen ∉ noise ∧
      ((stripToJson s).data = [] ∨
        ∃ t, (stripToJson s).data = braceOpen :: t)) ∧
    jsonParse (stripToJson "prepublish hook ran\n\x7b\"published\":true\x7d") =
      .ok (.obj [("published", .bool true)]) ∧
    (∀ (opts : PublishOpts) (isCI : Bool) (st : TwoFactorState)
        (env : AttemptEnv) (rest : List AttemptEnv),
      braceOpen ∉ env.stdout.data →
      internalPublish opts isCI st (env :: rest) = .error (.syntaxError "")) := by
  refine ⟨?_, rfl, ?_⟩
  · intro s
    refine ⟨s.data.takeWhile (fun c => c ≠ braceOpen), ?_, ?_, ?_⟩
    · exact (List.takeWhile_append_dropWhile (fun c => c ≠ braceOpen) s.data).symm
    · intro hmem
      have := mem_takeWhile_sat hmem
      simp at this
    · rcases dropWhile_head_not (p := fun c => c ≠ braceOpen) s.data with h | ⟨c, t, h, hc⟩
      · exact Or.inl h
      · refine Or.inr ⟨t, ?_⟩
        have hcb : c = braceOpen := by simpa using hc
        exact hcb ▸ h
  · intro opts isCI st env rest h
    have hstrip := stripToJson_of_no_brace h
    simp [internalPublish, attemptPublish, hstrip, jsonParse_empty]

/-- Witness for C5 at a concrete input: a brace-free output raises the
parse failure through `internalPublish`. -/
theorem c5_json_prefix_parsing_witness :
    internalPublish ⟨"/pkg", none, "latest"⟩ false ⟨none, false⟩
      [⟨none, .error (), "", "npm WARN something"⟩] =
      .error (.syntaxError "") :=
  c5_json_prefix_parsing.2.2 ⟨"/pkg", none, "latest"⟩ false ⟨none, false⟩
    ⟨none, .error (), "", "npm WARN something"⟩ [] (by decide)

/-- Claim C6 (confirmed): an empty info standard output maps to a synthetic
`E404` error object; `infoAllow404` turns an `E404` code into
`published: false` with an empty info object, escalates any other present
error code to `ExitError(1)`, and reports `published: true` for an
object-shaped result with no error field (the data model's
`RegistryQueryResult` shape). -/
theorem c6_info_404_handling :
    (getPackageInfo "" =
        .ok (.obj [("error", .obj [("code", .str "E404")])]) ∧
      infoAllow404 (.obj [("error", .obj [("code", .str "E404")])]) =
        .ok ⟨false, .obj []⟩) ∧
    (∀ pkgInfo : JsonValue,
      optChain (pkgInfo.get "error") "code" = some (.str "E404") →
      infoAllow404 pkgInfo = .ok ⟨false, .obj []⟩) ∧
    (∀ pkgInfo err code : JsonValue,
      pkgInfo.get "error" = some err → err.get "code" = some code →
      code ≠ .str "E404" →
      infoAllow404 pkgInfo = .error (.exitError 1)) ∧
    (∀ fields : List (String × JsonValue),
      JsonValue.get (.obj fields) "error" = none →
      infoAllow404 (.obj fields) = .ok ⟨true, .obj fields⟩) := by
  refine ⟨⟨rfl, rfl⟩, ?_, ?_, ?_⟩
  · intro pkgInfo h
    simp [infoAllow404, h, jsEqStr]
  · intro pkgInfo err code herr hcode hne
    obtain ⟨fields, hfields⟩ := get_some_obj hcode
    subst hfields
    have h1 : jsEqStr (optChain (pkgInfo.get "error") "code") "E404" = false := by
      rw [herr, optChain_obj, hcode]
      cases code with
      | str t =>
        have : t ≠ "E404" := fun h => hne (by rw [h])
        simp [jsEqStr, this]
      | _ => rfl
    have h2 : truthy (pkgInfo.get "error") = true := by
      rw [herr]; exact truthy_obj _
    simp [infoAllow404, h1, h2]
  · intro fields h
    simp [infoAllow404, h, jsEqStr, optChain, truthy]

/-- Witness for C6 at a concrete input: an `E500` info error escalates to
an abnormal termination. -/
theorem c6_info_404_handling_witness :
    infoAllow404 (.obj [("error", .obj [("code", .str "E500")])]) =
      .error (.exitError 1) :=
  c6_info_404_handling.2.2.1 (.obj [("error", .obj [("code", .str "E500")])])
    (.obj [("code", .str "E500")]) (.str "E500") rfl rfl (by simp)

/-- No `--otp` flag occurs in an argument vector built without an OTP code,
as long as none of the caller-supplied option values is the literal flag. -/
lemma otp_not_mem_buildPublishArgs (tool : PublishTool) (opts : PublishOpts)
    (hcwd : opts.cwd ≠ "--otp") (htag : opts.tag ≠ "--otp")
    (hacc : opts.access ≠ some "--otp") :
    "--otp" ∉ buildPublishArgs tool opts none := by
  intro hmem
  rcases ha : opts.access with _ | a <;>
    rcases tool with _ | b | b <;>
    (try cases b) <;>
    simp [buildPublishArgs, ha] at hmem <;>
    simp_all [eq_comm]

/-- Claim C7 (confirmed): in CI, even with `isRequired` resolved true and no
token, the attempt neither invokes `getOtpCode` nor appends a `--otp` flag,
and an OTP-related rejection terminates with `published: false` instead of
retrying. -/
theorem c7_ci_suppresses_otp (opts : PublishOpts) (st : TwoFactorState)
    (env : AttemptEnv) (rest : List AttemptEnv) (json err : JsonValue)
    (hreq : st.isRequired = true) (htok : st.token = none)
    (hcwd : opts.cwd ≠ "--otp") (htag : opts.tag ≠ "--otp")
    (hacc : opts.access ≠ some "--otp")
    (hparse : jsonParse (stripToJson env.stdout) = .ok json)
    (herr : json.get "error" = some err)
    (hcode : err.get "code" = some (.str "EOTP") ∨
      (err.get "code" = some (.str "E401") ∧
        ∃ d : String, err.get "detail" = some (.str d) ∧
          containsSeq "--otp=<code>".data d.data = true)) :
    attemptPublish opts true st env =
      .ok ⟨buildPublishArgs (getPublishTool env.pm env.probe) opts none,
           false, .done false⟩ ∧
    "--otp" ∉ buildPublishArgs (getPublishTool env.pm env.probe) opts none ∧
    internalPublish opts true st (env :: rest) = .ok (some ⟨false⟩) := by
  have htruthy : truthy (json.get "error") = true := by
    obtain ⟨fields, hfields⟩ :=
      (hcode.elim (fun h => get_some_obj h) (fun h => get_some_obj h.1))
    rw [herr, hfields]; exact truthy_obj fields
  have hcond :
      (if jsEqStr (optChain (json.get "error") "code") "EOTP" then
        Except.ok (ε := JsError) true
      else if jsEqStr (optChain (json.get "error") "code") "E401" then
        jsIncludes (optChain (json.get "error") "detail") "--otp=<code>"
      else .ok false) = .ok true := by
    obtain ⟨fields, hfields⟩ :=
      (hcode.elim (fun h => get_some_obj h) (fun h => get_some_obj h.1))
    subst hfields
    rw [herr, optChain_obj, optChain_obj]
    rcases hcode with h | ⟨h, d, hd, hinc⟩
    · simp [h, jsEqStr]
    · rw [h, hd]
      simp [jsEqStr, jsIncludes, hinc]
  have hattempt : attemptPublish opts true st env =
      .ok ⟨buildPublishArgs (getPublishTool env.pm env.probe) opts none,
           false, .done false⟩ := by
    simp only [attemptPublish, hparse, htruthy, Bool.not_true, Bool.and_false,
      Bool.false_eq_true, if_false, hcond]
  refine ⟨hattempt, otp_not_mem_buildPublishArgs _ opts hcwd htag hacc, ?_⟩
  simp [internalPublish, hattempt]

/-- Witness for C7 at a concrete input: a CI publish with OTP required and
no token fails fast on an `EOTP` rejection. -/
theorem c7_ci_suppresses_otp_witness :
    internalPublish ⟨"/pkg", none, "latest"⟩ true ⟨none, true⟩
      [⟨none, .error (), "", "\x7b\"error\":\x7b\"code\":\"EOTP\"\x7d\x7d"⟩] =
      .ok (some ⟨false⟩) :=
  (c7_ci_suppresses_otp ⟨"/pkg", none, "latest"⟩ ⟨none, true⟩
    ⟨none, .error (), "", "\x7b\"error\":\x7b\"code\":\"EOTP\"\x7d\x7d"⟩ []
    (.obj [("error", .obj [("code", .str "EOTP")])])
    (.obj [("code", .str "EOTP")])
    rfl rfl (by simp) (by simp) (by simp) rfl rfl (Or.inl rfl)).2.2

/-- One enabled gate event keeps every occupancy within capacity. -/
lemma gateStep_within {c c1 : GateCounts} {e : GateEvent}
    (h : gateStep c e = some c1) (h0 : withinCapacity c) : withinCapacity c1 := by
  obtain ⟨hi, hp, ho⟩ := h0
  cases e with
  | acquire g =>
    simp only [gateStep] at h
    split at h
    · cases h
      cases g <;>
        simp_all [GateCounts.inc, GateCounts.get, gateCapacity, withinCapacity,
          npmRequestLimit, npmPublishLimit, otpAskLimit] <;>
        omega
    · cases h
  | release g =>
    simp only [gateStep] at h
    split at h
    · cases h
      cases g <;>
        simp_all [GateCounts.dec, GateCounts.get, gateCapacity, withinCapacity,
          npmRequestLimit, npmPublishLimit, otpAskLimit] <;>
        omega
    · cases h

/-- Every occupancy reachable by a valid event sequence stays within
capacity. -/
lemma runTrace_within {es : List GateEvent} {c0 c : GateCounts}
    (h : runTrace c0 es = some c) (h0 : withinCapacity c0) :
    withinCapacity c := by
  induction es generalizing c0 with
  | nil =>
    simp only [runTrace] at h
    cases h
    exact h0
  | cons e es ih =>
    simp only [runTrace] at h
    cases hs : gateStep c0 e with
    | none => rw [hs] at h; cases h
    | some c1 =>
      rw [hs] at h
      exact ih h (gateStep_within hs h0)

/-- Claim C9 (confirmed, gate semantics modelled from the spec since
`p-limit` is an external dependency): the three gates have capacities 40, 10
and 1, and no valid schedule ever exceeds them; the public `publish` entry
nests the publish gate inside the info gate around `internalPublish`; and
`internalPublish` (the retry loop) acquires no gate, so a retry never
re-queues behind other pending publishes. -/
theorem c9_gate_capacities_nesting :
    (npmRequestLimit.capacity = 40 ∧ npmPublishLimit.capacity = 10 ∧
      otpAskLimit.capacity = 1) ∧
    (∀ (es : List GateEvent) (c : GateCounts),
      runTrace zeroCounts es = some c →
      c.infoCount ≤ 40 ∧ c.publishCount ≤ 10 ∧ c.otpCount ≤ 1) ∧
    outerGates publishProg = [.infoGate, .publishGate] ∧
    stripGates publishProg = internalPublishProg ∧
    acquiresGate internalPublishProg = false := by
  refine ⟨⟨rfl, rfl, rfl⟩, ?_, rfl, rfl, rfl⟩
  intro es c h
  exact runTrace_within h ⟨Nat.zero_le _, Nat.zero_le _, Nat.zero_le _⟩

/-- Witness for C9 at a concrete input: the schedule that admits one
publish call through both gates and releases them is valid and stays within
capacity. -/
theorem c9_gate_capacities_nesting_witness :
    zeroCounts.infoCount ≤ 40 ∧ zeroCounts.publishCount ≤ 10 ∧
      zeroCounts.otpCount ≤ 1 :=
  c9_gate_capacities_nesting.2.1
    [.acquire .infoGate, .acquire .publishGate, .release .publishGate,
     .release .infoGate]
    zeroCounts (by decide)

/-- Claim C10 counterexample: a profile JSON that does carry an `error`
field — with value `null` — still makes `getTokenIsRequired` return true,
because the source tests the field's truthiness (`json.error`), not its
presence; so "no error field" in the claim is false as stated. -/
theorem c10_token_required_counterexample :
    jsonParse "\x7b\"error\":null,\"tfa\":\x7b\"mode\":\"auth-and-writes\"\x7d\x7d" =
      .ok (.obj [("error", .null),
                 ("tfa", .obj [("mode", .str "auth-and-writes")])]) ∧
    getTokenIsRequired
        "\x7b\"error\":null,\"tfa\":\x7b\"mode\":\"auth-and-writes\"\x7d\x7d" =
      .ok true :=
  ⟨rfl, rfl⟩

/-- Claim C10 (amended): `getTokenIsRequired` spawns `npm profile get
--json` with the registry environment variable overridden to the resolved
registry; for an object-shaped profile JSON it returns true iff the `error`
field is absent or falsy (for example `null`) and `tfa.mode` strictly equals
`"auth-and-writes"`, returning false in every other parsed case; and it
propagates the thrown parse failure when the output is not valid JSON. -/
theorem c10_token_required_amended :
    (∀ envRegistry : Option String, getTokenIsRequiredRequest envRegistry =
      ⟨"npm", ["profile", "get", "--json"],
        some (getCorrectRegistry none envRegistry)⟩) ∧
    (∀ (stdout : String) (fields : List (String × JsonValue)),
      jsonParse stdout = .ok (.obj fields) →
      (getTokenIsRequired stdout = .ok true ↔
        (truthy (JsonValue.get (.obj fields) "error") = false ∧
         jsEqStr (optChain (JsonValue.get (.obj fields) "tfa") "mode")
           "auth-and-writes" = true))) ∧
    (∀ (stdout : String) (fields : List (String × JsonValue)),
      jsonParse stdout = .ok (.obj fields) →
      ∃ b : Bool, getTokenIsRequired stdout = .ok b) ∧
    (∀ (stdout : String) (e : JsError),
      jsonParse stdout = .error e → getTokenIsRequired stdout = .error e) := by
  refine ⟨fun e => rfl, ?_, ?_, ?_⟩
  · intro stdout fields hparse
    simp only [getTokenIsRequired, hparse]
    by_cases hE : truthy (JsonValue.get (.obj fields) "error") = true
    · simp [hE]
    · rw [Bool.not_eq_true] at hE
      by_cases hT : truthy (JsonValue.get (.obj fields) "tfa") = true
      · by_cases hM :
            truthy (optChain (JsonValue.get (.obj fields) "tfa") "mode") = true
        · simp [hE, hT, hM]
        · rw [Bool.not_eq_true] at hM
          simp [hE, hT, hM, jsEqStr_auth_of_falsy hM]
      · rw [Bool.not_eq_true] at hT
        simp [hE, hT, optChain_of_falsy hT, jsEqStr]
  · intro stdout fields hparse
    simp only [getTokenIsRequired, hparse]
    split <;> exact ⟨_, rfl⟩
  · intro stdout e hparse
    simp [getTokenIsRequired, hparse]

/-- Witness for the amended C10 at a concrete input: a profile with no
error field and `tfa.mode = "auth-and-writes"` yields true. -/
theorem c10_token_required_amended_witness :
    getTokenIsRequired "\x7b\"tfa\":\x7b\"mode\":\"auth-and-writes\"\x7d\x7d" =
      .ok true :=
  (c10_token_required_amended.2.1
    "\x7b\"tfa\":\x7b\"mode\":\"auth-and-writes\"\x7d\x7d"
    [("tfa", .obj [("mode", .str "auth-and-writes")])] rfl).mpr ⟨rfl, rfl⟩

end NpmUtils
